import Mathlib

/-!
Verification development for the MP4-md video-transcription pipeline.

The definitions below are shallow embeddings of the Python modules:

* `src/modules/link_classifier/link_classifier.py` — URL extraction,
  ordered platform pattern matching, and primary-link selection;
* `src/modules/preprocessing/video_downloader.py` — the candidate
  scoring loop `_select_best_download_url`;
* `src/modules/preprocessing/downloaders/direct_downloader.py` — the
  chunked download loop `download_file` with its retry handling, size
  limits and partial-file cleanup, modelled via an explicit filesystem
  map and a per-attempt network behaviour function;
* `src/modules/preprocessing/parsers/bilibili_parser.py` — the
  `_call_bilibili_api` retry loop over payload-level status codes;
* `src/modules/workflow/workflow_controller.py` — the stage sequencing
  of `process_video_link`, with external collaborators (downloader,
  audio extraction, transcription, text processing, persistence) passed
  in as parameters.

Machine strings are Lean `String`s, byte counts are `Nat`, and Python
dicts become structures whose optional keys are `Option` fields.  Network
I/O is modelled by a function from the attempt index to the behaviour the
remote side exhibits on that attempt; the filesystem is an association
list from paths to file sizes.
-/

namespace MP4MD

/-! ### Link classifier: URL extraction

`_extract_links` uses `re.findall` with the pattern
`https?://[^\s<>"{}|\\^`[]]+` (scheme followed by a nonempty run of
characters that are not whitespace and not one of the excluded
punctuation characters).  `findall` scans left to right and resumes
after each match.  We model the scan on `List Char` with a fuel argument
equal to the input length; every step consumes at least one character,
so the fuel never runs out on the initial call.
-/

/-- Characters excluded from a URL body by the extraction regex:
whitespace (Python `\s` on ASCII) and the literal set of the character
class. -/
def urlBodyChar (c : Char) : Bool :=
  !(c == ' ' || c == '\t' || c == '\n' || c == '\r' || c == '\x0b' || c == '\x0c' ||
    c == '<' || c == '>' || c == '\"' || c == '\x7b' || c == '\x7d' || c == '|' ||
    c == '\\' || c == '^' || c == '\x60' || c == '[' || c == ']')

/-- Strip the scheme `https?://` from the head of the character list,
returning the consumed characters and the rest.  The `s` is optional and
greedy, exactly as in the regex. -/
def stripScheme : List Char → Option (List Char × List Char)
  | 'h' :: 't' :: 't' :: 'p' :: 's' :: ':' :: '/' :: '/' :: r =>
      some ("https://".toList, r)
  | 'h' :: 't' :: 't' :: 'p' :: ':' :: '/' :: '/' :: r =>
      some ("http://".toList, r)
  | _ => none

/-- Try to match one URL at the head of the list: the scheme followed by
a nonempty greedy run of `urlBodyChar`.  Returns the matched URL and the
remaining characters. -/
def matchUrlAt (l : List Char) : Option (String × List Char) :=
  match stripScheme l with
  | none => none
  | some (pre, r) =>
      let body := r.takeWhile urlBodyChar
      if body.isEmpty then none
      else some (String.mk (pre ++ body), r.drop body.length)

/-- Fuelled left-to-right scan of `re.findall`: at each position try a
match; on success resume after the match, otherwise advance one
character. -/
def findAllGo : Nat → List Char → List String
  | 0, _ => []
  | _, [] => []
  | fuel + 1, c :: rest =>
      match matchUrlAt (c :: rest) with
      | some (link, remaining) => link :: findAllGo fuel remaining
      | none => findAllGo fuel rest

/-- `LinkClassifier._extract_links`. -/
def extractLinks (text : String) : List String :=
  findAllGo text.toList.length text.toList

/-! ### Link classifier: platform pattern table

Each regex of `self.link_patterns` is embedded as a function
`List Char → Option String` returning the first capture group on a
match (every pattern in the table has a first capture group that
participates whenever the pattern matches).  `re.match` anchors at the
start of the URL only, so trailing characters are ignored except where a
pattern ends in `$`.
-/

/-- Strip an exact literal from the head of a list. -/
def dropLit : List Char → List Char → Option (List Char)
  | [], l => some l
  | _ :: _, [] => none
  | c :: cs, d :: ds => if c == d then dropLit cs ds else none

/-- Strip an optional `www.`, as in `(?:www\.)?`. -/
def dropOptWWW (l : List Char) : List Char :=
  match dropLit "www.".toList l with
  | some r => r
  | none => l

/-- `[A-Za-z0-9]`. -/
def isAlnumC (c : Char) : Bool := c.isAlphanum

/-- `[A-Za-z0-9_-]`. -/
def isIdC (c : Char) : Bool := c.isAlphanum || c == '_' || c == '-'

/-- Greedy nonempty capture of a character class, as in `([...]+)`
with no anchor after it. -/
def capWith (p : Char → Bool) (l : List Char) : Option String :=
  let run := l.takeWhile p
  if run.isEmpty then none else some (String.mk run)

/-- A pattern of the shape `https?://(?:www\.)?LIT([CLASS]+)` (with the
`www.` part only when `www` is set). -/
def schemeThen (www : Bool) (mid : String) (capSet : Char → Bool)
    (u : List Char) : Option String :=
  match stripScheme u with
  | none => none
  | some (_, r) =>
      let r := if www then dropOptWWW r else r
      match dropLit mid.toList r with
      | none => none
      | some rest => capWith capSet rest

/-- Does `rest` start with extension `e` followed by end-of-string or a
`?` query, as required by `ext(\?.*)?$`? -/
def extAt (e : String) (rest : List Char) : Bool :=
  match dropLit e.toList rest with
  | some [] => true
  | some ('?' :: _) => true
  | _ => false

/-- First extension of `exts` (regex alternation order) matching at this
position. -/
def extHere (exts : List String) (rest : List Char) : Option String :=
  exts.find? (fun e => extAt e rest)

/-- `.*\.(EXTS)(\?.*)?$` : the greedy `.*` makes the regex engine bind
the group at the rightmost dot that admits a match, so we prefer matches
found further right. -/
def scanExtLast (exts : List String) : List Char → Option String
  | [] => none
  | '.' :: rest =>
      (match scanExtLast exts rest with
       | some e => some e
       | none => extHere exts rest)
  | _ :: rest => scanExtLast exts rest

/-- `[^/]*MARK/.*\.(EXTS)(\?.*)?$` applied after the scheme: a host
segment (no `/`) ending in `MARK`, then a path ending in one of the
extensions.  Greedy `[^/]*` prefers the rightmost occurrence. -/
def hostMarkScan (mark : List Char) (exts : List String) : List Char → Option String
  | [] => none
  | c :: rest =>
      if c == '/' then none
      else
        match hostMarkScan mark exts rest with
        | some e => some e
        | none =>
            match dropLit (mark ++ ['/']) (c :: rest) with
            | some suffix => scanExtLast exts suffix
            | none => none

/-- `[^/]*\.(cdn|media|video|stream)\.com/.*\.(EXTS)(\?.*)?$` applied
after the scheme.  The overall first group — hence the `platform_id` —
is the CDN word, not the extension. -/
def cdnScan (words : List String) (exts : List String) : List Char → Option String
  | [] => none
  | c :: rest =>
      if c == '/' then none
      else
        match cdnScan words exts rest with
        | some w => some w
        | none =>
            words.findSome? (fun w =>
              match dropLit ('.' :: (w.toList ++ ".com/".toList)) (c :: rest) with
              | some suffix => (scanExtLast exts suffix).map (fun _ => w)
              | none => none)

/-- `[^/]*\.(EXTS)(\?.*)?$` applied after the scheme: a dot before any
slash, followed by the extension and end-of-string or a query. -/
def noSlashExtScan (exts : List String) : List Char → Option String
  | [] => none
  | c :: rest =>
      if c == '/' then none
      else if c == '.' then
        (match noSlashExtScan exts rest with
         | some e => some e
         | none => extHere exts rest)
      else noSlashExtScan exts rest

/-- Video file extensions of the `direct_video` patterns. -/
def videoExts : List String := ["mp4", "avi", "mov", "mkv", "wmv", "flv", "webm", "m4v"]

/-- Audio file extensions of the `direct_audio` patterns. -/
def audioExts : List String := ["mp3", "wav", "m4a", "aac", "flac", "ogg"]

/-- Apply a scheme requirement before a body scan. -/
def afterScheme (f : List Char → Option String) (u : List Char) : Option String :=
  match stripScheme u with
  | none => none
  | some (_, r) => f r

/-- The ordered pattern table `self.link_patterns` (Python dict
insertion order). -/
def linkPatternTable : List (String × List (List Char → Option String)) :=
  [ ("bilibili",
      [ schemeThen true "bilibili.com/video/" isAlnumC,
        schemeThen false "b23.tv/" isAlnumC,
        schemeThen true "bilibili.com/bangumi/play/" isAlnumC,
        schemeThen true "bilibili.com/medialist/play/" isAlnumC,
        schemeThen true "bilibili.com/cheese/play/" isAlnumC ]),
    ("youtube",
      [ schemeThen true "youtube.com/watch?v=" isIdC,
        schemeThen false "youtu.be/" isIdC,
        schemeThen true "youtube.com/embed/" isIdC ]),
    ("vimeo",
      [ schemeThen true "vimeo.com/" Char.isDigit,
        schemeThen false "player.vimeo.com/video/" Char.isDigit ]),
    ("douyin",
      [ schemeThen true "douyin.com/video/" isAlnumC,
        schemeThen false "v.douyin.com/" isAlnumC ]),
    ("kuaishou",
      [ schemeThen true "kuaishou.com/short-video/" isAlnumC,
        schemeThen false "v.kuaishou.com/" isAlnumC ]),
    ("direct_video",
      [ fun u => scanExtLast videoExts u,
        afterScheme (hostMarkScan "bilivideo.com".toList ["mp4", "flv", "m4v"]),
        afterScheme (cdnScan ["cdn", "media", "video", "stream"] videoExts),
        afterScheme (noSlashExtScan videoExts) ]),
    ("direct_audio",
      [ fun u => scanExtLast audioExts u,
        afterScheme (noSlashExtScan audioExts) ]) ]

/-- First matching pattern within one platform's pattern list. -/
def firstMatchIn (pats : List (List Char → Option String)) (u : List Char) :
    Option String :=
  match pats with
  | [] => none
  | p :: ps =>
      match p u with
      | some pid => some pid
      | none => firstMatchIn ps u

/-- Walk the ordered table; a URL matching no group gets tag
`unknown`. -/
def identifyGo : List (String × List (List Char → Option String)) → List Char →
    String × Option String
  | [], _ => ("unknown", none)
  | (tag, pats) :: rest, u =>
      match firstMatchIn pats u with
      | some pid => (tag, some pid)
      | none => identifyGo rest u

/-- `LinkClassifier._identify_link_type`. -/
def identifyLinkType (url : String) : String × Option String :=
  identifyGo linkPatternTable url.toList

/-- `LinkClassifier._get_parser_name`: every tag maps to a resolver
name, with `generic_parser` as the dictionary-get default. -/
def getParserName (t : String) : String :=
  if t == "bilibili" then "bilibili_parser"
  else if t == "youtube" then "youtube_parser"
  else if t == "vimeo" then "vimeo_parser"
  else if t == "douyin" then "douyin_parser"
  else if t == "kuaishou" then "kuaishou_parser"
  else if t == "direct_video" then "direct_downloader"
  else if t == "direct_audio" then "direct_downloader"
  else if t == "unknown" then "generic_parser"
  else "generic_parser"

/-- One entry of the `classified_links` list built by `classify_link`. -/
structure ClassifiedLink where
  url : String
  type : String
  platform_id : Option String
  parser : String
  deriving DecidableEq, Repr

/-- The fixed `priority_order` list of `_select_primary_link`. -/
def priorityOrder : List String :=
  ["direct_video", "direct_audio", "bilibili", "youtube", "vimeo",
   "douyin", "kuaishou", "unknown"]

/-- The nested loops of `_select_primary_link`: for each priority tag in
order, return the first classified link carrying it. -/
def firstByPriority : List String → List ClassifiedLink → Option ClassifiedLink
  | [], _ => none
  | t :: ts, links =>
      match links.find? (fun l => l.type == t) with
      | some l => some l
      | none => firstByPriority ts links

/-- `LinkClassifier._select_primary_link`. -/
def selectPrimaryLink (links : List ClassifiedLink) : Option ClassifiedLink :=
  if links.isEmpty then none
  else
    match firstByPriority priorityOrder links with
    | some l => some l
    | none => links.head?

/-- Return shape of `classify_link` (a Python dict; keys absent in a
branch are `none`). -/
structure ClassifyResult where
  success : Bool
  error : Option String := none
  links : List ClassifiedLink := []
  primary_link : Option ClassifiedLink := none
  total_links : Option Nat := none
  deriving DecidableEq, Repr

/-- `LinkClassifier.classify_link`: extract, classify each URL, pick the
primary.  The no-links case returns the soft-failure dict; no exception
escapes (the embedding is a total function, as the Python wraps its body
in a catch-all converting faults to the same shape). -/
def classifyLink (inputText : String) : ClassifyResult :=
  let links := extractLinks inputText
  if links.isEmpty then
    { success := false, error := some "未找到任何链接" }
  else
    let classified := links.map (fun link =>
      let tp := identifyLinkType link
      { url := link, type := tp.1, platform_id := tp.2,
        parser := getParserName tp.1 : ClassifiedLink })
    { success := true, links := classified,
      primary_link := selectPrimaryLink classified,
      total_links := some links.length }

/-! ### Candidate selector

`VideoDownloader._select_best_download_url` scores each candidate dict
additively and keeps the strictly best, so the first candidate wins
ties (the running best starts as the first candidate's URL with score
0). -/

/-- One download-candidate dict (`url_info`); optional keys model the
`dict.get` defaults used by the scorer. -/
structure DLCandidate where
  url : String
  quality : Option String := none
  format : Option String := none
  size : Option Nat := none
  deriving DecidableEq, Repr

/-- Substring test (`in` on Python strings), on character lists. -/
def startsWithChars : List Char → List Char → Bool
  | [], _ => true
  | _ :: _, [] => false
  | a :: ns, b :: hs => a == b && startsWithChars ns hs

/-- Substring test used for quality markers. -/
def containsSub (needle : List Char) : List Char → Bool
  | [] => needle.isEmpty
  | c :: rest => startsWithChars needle (c :: rest) || containsSub needle rest

/-- Python `str.lower()` on one character (ASCII range; the labels the
scorer sees are ASCII or Chinese, and CJK characters have no case). -/
def lowC (c : Char) : Char :=
  if c.isUpper then Char.ofNat (c.toNat + 32) else c

/-- Python `str.lower()` as a character list. -/
def lowerChars (s : String) : List Char := s.toList.map lowC

/-- The additive score of `_select_best_download_url` for one
candidate: quality chain (`1080`/`hd` +3, else `720` +2, else `480`
+1), format (`mp4`/`webm` +2, `direct` +1), size (positive and
< 100 MB +2, < 500 MB +1, otherwise +0). -/
def scoreCandidate (c : DLCandidate) : Nat :=
  let q := lowerChars (c.quality.getD "unknown")
  let qualityScore : Nat :=
    if containsSub "1080".toList q || containsSub "hd".toList q then 3
    else if containsSub "720".toList q then 2
    else if containsSub "480".toList q then 1
    else 0
  let f := lowerChars (c.format.getD "unknown")
  let formatScore : Nat :=
    if f == "mp4".toList || f == "webm".toList then 2
    else if f == "direct".toList then 1
    else 0
  let s := c.size.getD 0
  let sizeScore : Nat :=
    if 0 < s then
      if s < 100 * 1024 * 1024 then 2
      else if s < 500 * 1024 * 1024 then 1
      else 0
    else 0
  qualityScore + formatScore + sizeScore

/-- The selection loop: update the running best only on a strictly
greater score. -/
def selectLoop : List DLCandidate → String → Nat → String
  | [], bu, _ => bu
  | c :: cs, bu, bs =>
      if bs < scoreCandidate c then selectLoop cs c.url (scoreCandidate c)
      else selectLoop cs bu bs

/-- `VideoDownloader._select_best_download_url` (empty input returns the
empty string, as in the source). -/
def selectBestDownloadUrl (l : List DLCandidate) : String :=
  match l with
  | [] => ""
  | c0 :: _ => selectLoop l c0.url 0

/-- Modelled from the spec for comparison: the maximal candidate score
of a list. -/
def maxScoreOf (l : List DLCandidate) : Nat :=
  l.foldr (fun c m => max (scoreCandidate c) m) 0

/-- Modelled from the spec for comparison: `select` returns the URL of
the highest-scoring candidate, the first such candidate winning
ties. -/
def specSelectBest (l : List DLCandidate) : String :=
  match l with
  | [] => ""
  | c0 :: _ =>
      match l.find? (fun c => maxScoreOf l ≤ scoreCandidate c) with
      | some c => c.url
      | none => c0.url

/-! ### Direct downloader

`DirectDownloader.download_file` is a three-attempt loop over one URL.
The filesystem is an association list from paths to sizes; the remote
side's behaviour on attempt `i` is `net i`.  An attempt can fail when
the request is issued (`netFail`), fail with an HTTP status code
(`httpStatus`, i.e. `raise_for_status`), or return a streaming body
(`ok`) that delivers some chunks and then either completes or raises
mid-stream (`thenFail`).  The embedding returns the result dict, the
final filesystem, and the list of sleeps (in seconds) performed between
attempts. -/

/-- `requests` exceptions distinguished by the handler chain: timeout,
connection error, or any other exception (the catch-all returns
`str(e)`). -/
inductive NetFailure
  | timeout
  | connError
  | other (msg : String)
  deriving DecidableEq, Repr

/-- A streamed 2xx response: declared content-length header, the sizes
of the chunks delivered, and an optional exception raised after those
chunks. -/
structure OkResponse where
  contentLength : Option Nat := none
  chunks : List Nat := []
  thenFail : Option NetFailure := none
  deriving DecidableEq, Repr

/-- Behaviour of the remote side on one attempt. -/
inductive AttemptBehavior
  | netFail (e : NetFailure)
  | httpStatus (code : Nat)
  | ok (r : OkResponse)
  deriving DecidableEq, Repr

/-- Result dict of `download_file`. -/
structure DLResult where
  success : Bool
  file_path : Option String := none
  filename : Option String := none
  size : Option Nat := none
  message : Option String := none
  error : Option String := none
  url : Option String := none
  deriving DecidableEq, Repr

/-- The filesystem visible to the downloader: path to size in bytes. -/
def FS := List (String × Nat)

/-- `os.path.exists` and `os.path.getsize` combined. -/
def FS.lookup (fs : FS) (p : String) : Option Nat :=
  (List.find? (fun e => e.1 == p) fs).map (fun e => e.2)

/-- `os.remove`. -/
def FS.erase (fs : FS) (p : String) : FS :=
  List.filter (fun e => !(e.1 == p)) fs

/-- `open(path, 'wb')` followed by writing `n` bytes. -/
def FS.write (fs : FS) (p : String) (n : Nat) : FS :=
  (p, n) :: FS.erase fs p

/-- Downloader configuration from `config.env` (defaults:
`DOWNLOAD_DIR=./downloads`, `MAX_FILE_SIZE_MB=1000`). -/
structure DLConfig where
  downloadDir : String := "./downloads"
  maxFileSize : Nat := 1000 * 1024 * 1024
  deriving Repr

/-- The hard-coded `max_retries = 3` of `download_file`. -/
def downloaderMaxRetries : Nat := 3

/-- The hard-coded `retry_delay = 2` (seconds) of `download_file`. -/
def downloaderRetryDelay : Nat := 2

/-- `os.path.join(self.download_dir, filename)`. -/
def filePathOf (cfg : DLConfig) (filename : String) : String :=
  cfg.downloadDir ++ "/" ++ filename

/-- The chunk loop: skip empty chunks, accumulate written bytes, and
trip the moment the running total exceeds the limit.  Returns the bytes
written and whether the limit tripped. -/
def streamChunks (maxFS : Nat) : List Nat → Nat → Nat × Bool
  | [], acc => (acc, false)
  | c :: cs, acc =>
      if c == 0 then streamChunks maxFS cs acc
      else
        let acc' := acc + c
        if maxFS < acc' then (acc', true)
        else streamChunks maxFS cs acc'

/-- One iteration of the `for attempt in range(max_retries)` loop of
`download_file`.  `fuel` is the number of remaining iterations
(including this one), so `fuel = maxRetries - attempt`; the source's
retry guard `attempt < max_retries - 1` is exactly `2 ≤ fuel`.  Running
out of fuel is falling off the loop, producing the final
`已重试{max_retries}次` failure.  The third component is the list of
`time.sleep` delays performed. -/
def downloadGo (cfg : DLConfig) (net : Nat → AttemptBehavior)
    (url filename : String) : FS → Nat → Nat → DLResult × FS × List Nat
  | fs, _, 0 =>
      ({ success := false,
         error := some ("下载失败，已重试" ++ toString downloaderMaxRetries ++ "次"),
         url := some url }, fs, [])
  | fs, attempt, fuel + 1 =>
      let file_path := filePathOf cfg filename
      match FS.lookup fs file_path with
      | some sz =>
          -- existing-file short-circuit: report success without re-downloading
          ({ success := true, file_path := some file_path,
             filename := some filename, size := some sz,
             message := some "文件已存在" }, fs, [])
      | none =>
          match net attempt with
          | .ok r =>
              if (r.contentLength.map (fun n => decide (cfg.maxFileSize < n))).getD false then
                -- declared size exceeds the limit: reject before opening the file
                ({ success := false, error := some "文件大小超过限制",
                   url := some url }, fs, [])
              else
                -- open the file (creating it) and stream chunks under the
                -- running size limit
                let sc := streamChunks cfg.maxFileSize r.chunks 0
                if sc.2 then
                  -- running total exceeded the limit: delete the partial file
                  ({ success := false, error := some "下载大小超过限制",
                     url := some url },
                   FS.erase (FS.write fs file_path sc.1) file_path, [])
                else
                  let fsW := FS.write fs file_path sc.1
                  match r.thenFail with
                  | some .timeout =>
                      if 1 ≤ fuel then
                        let rec1 := downloadGo cfg net url filename fsW (attempt + 1) fuel
                        (rec1.1, rec1.2.1, downloaderRetryDelay :: rec1.2.2)
                      else
                        ({ success := false, error := some "下载超时",
                           url := some url }, fsW, [])
                  | some .connError =>
                      if 1 ≤ fuel then
                        let rec1 := downloadGo cfg net url filename fsW (attempt + 1) fuel
                        (rec1.1, rec1.2.1, downloaderRetryDelay :: rec1.2.2)
                      else
                        ({ success := false, error := some "连接错误",
                           url := some url }, fsW, [])
                  | some (.other m) =>
                      ({ success := false, error := some m, url := some url },
                       fsW, [])
                  | none =>
                      -- post-download verification
                      match FS.lookup fsW file_path with
                      | some actual =>
                          if actual == 0 then
                            ({ success := false,
                               error := some "下载的文件大小为0，可能下载失败",
                               url := some url }, FS.erase fsW file_path, [])
                          else
                            ({ success := true, file_path := some file_path,
                               filename := some filename, size := some actual,
                               message := some "下载完成" }, fsW, [])
                      | none =>
                          ({ success := false, error := some "文件下载后不存在",
                             url := some url }, fsW, [])
          | .httpStatus code =>
              if code == 403 then
                if 1 ≤ fuel then
                  let rec1 := downloadGo cfg net url filename fs (attempt + 1) fuel
                  (rec1.1, rec1.2.1, downloaderRetryDelay :: rec1.2.2)
                else
                  ({ success := false,
                     error := some "访问被拒绝(403)，可能是链接过期或需要特殊请求头",
                     url := some url }, fs, [])
              else if code == 404 then
                ({ success := false,
                   error := some "文件不存在(404)，链接可能已失效",
                   url := some url }, fs, [])
              else if code == 429 then
                if 1 ≤ fuel then
                  let rec1 := downloadGo cfg net url filename fs (attempt + 1) fuel
                  (rec1.1, rec1.2.1, downloaderRetryDelay * 2 :: rec1.2.2)
                else
                  ({ success := false,
                     error := some "请求过于频繁(429)，请稍后重试",
                     url := some url }, fs, [])
              else
                ({ success := false, error := some "HTTP错误",
                   url := some url }, fs, [])
          | .netFail .timeout =>
              if 1 ≤ fuel then
                let rec1 := downloadGo cfg net url filename fs (attempt + 1) fuel
                (rec1.1, rec1.2.1, downloaderRetryDelay :: rec1.2.2)
              else
                ({ success := false, error := some "下载超时",
                   url := some url }, fs, [])
          | .netFail .connError =>
              if 1 ≤ fuel then
                let rec1 := downloadGo cfg net url filename fs (attempt + 1) fuel
                (rec1.1, rec1.2.1, downloaderRetryDelay :: rec1.2.2)
              else
                ({ success := false, error := some "连接错误",
                   url := some url }, fs, [])
          | .netFail (.other m) =>
              ({ success := false, error := some m, url := some url }, fs, [])

/-- `DirectDownloader.download_file` with an explicitly supplied
filename (both call sites in the repository pass one; the
`filename=None` fallback derives a name from the URL or the clock and
is not needed by any claim). -/
def downloadFile (cfg : DLConfig) (net : Nat → AttemptBehavior)
    (url filename : String) (fs : FS) : DLResult × FS × List Nat :=
  downloadGo cfg net url filename fs 0 downloaderMaxRetries

/-! ### Bilibili resolver: the remote-API retry loop

`BilibiliParser._call_bilibili_api` loops `max_retries` times.  A 2xx
transport response carries a JSON payload whose own `code` field signals
success (`code == 1`); any non-success payload is retried, and on the
final attempt becomes a terminal failure carrying the payload's `msg`
(default `未知错误`).  `requests` exceptions (including non-2xx statuses
surfaced by `raise_for_status`, which raises a `RequestException`) are
retried the same way; any other exception fails immediately. -/

/-- The JSON payload of the remote resolution API, as far as status
signalling is concerned. -/
structure BiliPayload where
  code : Int
  msg : Option String := none
  deriving DecidableEq, Repr

/-- Behaviour of the remote resolution API on one attempt. -/
inductive ApiAttempt
  | reqFail (msg : String)
  | payload (p : BiliPayload)
  | exn (msg : String)
  deriving DecidableEq, Repr

/-- Result dict of `_call_bilibili_api`. -/
structure ApiResult where
  success : Bool
  data : Option BiliPayload := none
  error : Option String := none
  url : Option String := none
  deriving DecidableEq, Repr

/-- One iteration of the `for attempt in range(self.max_retries)` loop.
`fuel` counts the remaining iterations including this one, so the
source's last-attempt test `attempt == self.max_retries - 1` is
`fuel = 1`.  The second component counts attempts actually performed. -/
def biliGo (maxRetries : Nat) (net : Nat → ApiAttempt) (url : String) :
    Nat → Nat → ApiResult × Nat
  | _, 0 =>
      ({ success := false,
         error := some ("B站API调用失败，已重试" ++ toString maxRetries ++ "次"),
         url := some url }, 0)
  | attempt, fuel + 1 =>
      match net attempt with
      | .payload p =>
          if p.code == 1 then
            ({ success := true, data := some p }, 1)
          else if fuel == 0 then
            ({ success := false,
               error := some ("B站API错误: " ++ p.msg.getD "未知错误"),
               url := some url }, 1)
          else
            let r := biliGo maxRetries net url (attempt + 1) fuel
            (r.1, r.2 + 1)
      | .reqFail m =>
          if fuel == 0 then
            ({ success := false,
               error := some ("B站API请求失败: " ++ m),
               url := some url }, 1)
          else
            let r := biliGo maxRetries net url (attempt + 1) fuel
            (r.1, r.2 + 1)
      | .exn m =>
          ({ success := false, error := some m, url := some url }, 1)

/-- `BilibiliParser._call_bilibili_api` (configuration default
`BILIBILI_MAX_RETRIES=3`). -/
def callBilibiliApi (maxRetries : Nat) (net : Nat → ApiAttempt)
    (url : String) : ApiResult × Nat :=
  biliGo maxRetries net url 0 maxRetries

/-! ### Workflow orchestrator

`WorkflowController.process_video_link` sequences classification (the
in-repository `classify_link` embedded above), download, audio
extraction, transcription, text processing and persistence.  The
network-and-process collaborators are passed in as functions; each
returns its own result dict.  The orchestrator returns the first failing
stage's result unchanged, except that a text-processing failure is
recovered by substituting the raw transcript. -/

/-- Result dict of `VideoDownloader.download_video` as consumed by the
orchestrator (fields it never reads are omitted; fields read only after
a success check are plain). -/
structure DLVideoResult where
  success : Bool
  file_path : String := ""
  title : Option String := none
  duration : Option Nat := none
  size : Option Nat := none
  platform : Option String := none
  error : Option String := none
  deriving DecidableEq, Repr

/-- Result dict of `AudioProcessor.extract_audio_from_video`. -/
structure AudioResult where
  success : Bool
  audio_path : String := ""
  error : Option String := none
  deriving DecidableEq, Repr

/-- Result dict of `AudioTranscriber.transcribe_audio`. -/
structure TransResult where
  success : Bool
  transcript : String := ""
  transcript_with_timestamps : Option String := none
  error : Option String := none
  deriving DecidableEq, Repr

/-- Result dict of `TextProcessor.process_text`. -/
structure TextResult where
  success : Bool
  formatted_text : String := ""
  error : Option String := none
  deriving DecidableEq, Repr

/-- The final success dict assembled by `process_video_link` (the
`datetime`-derived output paths added by `_save_transcription_result`
are collected in `saved_files`). -/
structure WFRecord where
  success : Bool
  input_text : String
  link_type : String
  platform_id : Option String
  video_path : String
  audio_path : String
  transcript : String
  transcript_with_timestamps : Option String
  formatted_text : String
  text_processing_success : Bool
  text_processing_error : Option String
  message : String
  title : Option String
  duration : Option Nat
  size : Option Nat
  platform : String
  url : String
  saved_files : List String := []
  deriving DecidableEq, Repr

/-- The external collaborators of the orchestrator.
`_save_transcription_result` only adds output-file paths to the record
(it never touches `success`), so persistence is a path-producing
function. -/
structure Collaborators where
  download : String → String → DLVideoResult
  extractAudio : String → AudioResult
  transcribe : String → TransResult
  processText : String → String → TextResult
  persist : WFRecord → List String

/-- The value returned by `process_video_link`: one of the per-stage
dicts, tagged by which return statement produced it. -/
inductive WFOutput
  | classificationFailure (r : ClassifyResult)
  | noPrimary (inputText : String)
  | downloadFailure (r : DLVideoResult)
  | audioFailure (r : AudioResult)
  | transcriptionFailure (r : TransResult)
  | completed (r : WFRecord)
  deriving DecidableEq, Repr

/-- The success record assembled by `process_video_link` after the
text-processing step (before persistence adds output paths). -/
def assembleRecord (inputText : String) (pl : ClassifiedLink) (d : DLVideoResult)
    (a : AudioResult) (t : TransResult) (tx : TextResult) : WFRecord :=
  { success := true
    input_text := inputText
    link_type := pl.type
    platform_id := pl.platform_id
    video_path := d.file_path
    audio_path := a.audio_path
    transcript := t.transcript
    transcript_with_timestamps := t.transcript_with_timestamps
    formatted_text := if tx.success then tx.formatted_text else t.transcript
    text_processing_success := tx.success
    text_processing_error := if tx.success then none else tx.error
    message := "视频转录处理完成 - " ++
      (if tx.success then "文本格式化完成"
       else "文本格式化失败: " ++ tx.error.getD "未知错误")
    title := d.title
    duration := d.duration
    size := d.size
    platform := d.platform.getD pl.type
    url := pl.url }

/-- `WorkflowController.process_video_link`. -/
def processVideoLink (co : Collaborators) (inputText : String) : WFOutput :=
  let c := classifyLink inputText
  if c.success = false then .classificationFailure c
  else
    match c.primary_link with
    | none => .noPrimary inputText
    | some pl =>
        let d := co.download pl.url pl.type
        if d.success = false then .downloadFailure d
        else
          let a := co.extractAudio d.file_path
          if a.success = false then .audioFailure a
          else
            let t := co.transcribe a.audio_path
            if t.success = false then .transcriptionFailure t
            else
              let tx := co.processText t.transcript "format"
              let record := assembleRecord inputText pl d a t tx
              .completed { record with saved_files := co.persist record }

/-- Concrete collaborators used to exercise the orchestrator: every
media stage succeeds and the text-processing service fails. -/
def wfDemoCollab : Collaborators :=
  { download := fun _ _ => { success := true, file_path := "v.mp4" }
    extractAudio := fun _ => { success := true, audio_path := "a.wav" }
    transcribe := fun _ => { success := true, transcript := "原始转录文本" }
    processText := fun _ _ => { success := false, error := some "格式化服务不可用" }
    persist := fun _ => ["out.json"] }

/-- The input text fed to the orchestrator in the concrete run. -/
def wfDemoInput : String := "看 https://example.com/v.mp4 吧"

/-- The primary link the classifier derives from `wfDemoInput`. -/
def wfDemoPrimary : ClassifiedLink :=
  { url := "https://example.com/v.mp4", type := "direct_video",
    platform_id := some "mp4", parser := "direct_downloader" }

/-! ## Helper lemmas -/

/-- Every tag produced by the table walk is either `unknown` or one of
the table's keys. -/
theorem identifyGo_tag_mem (table : List (String × List (List Char → Option String)))
    (u : List Char) :
    (identifyGo table u).1 = "unknown" ∨ (identifyGo table u).1 ∈ table.map Prod.fst := by
  induction table with
  | nil => left; rfl
  | cons hd tl ih =>
      obtain ⟨tag, pats⟩ := hd
      simp only [identifyGo]
      cases h : firstMatchIn pats u with
      | some pid => right; simp
      | none =>
          rcases ih with h1 | h1
          · left; exact h1
          · right; simp only [List.map_cons, List.mem_cons]; right; exact h1

/-- Every URL is tagged with one of the eight tags of the priority
order. -/
theorem identifyLinkType_tag_mem (url : String) :
    (identifyLinkType url).1 ∈ priorityOrder := by
  rcases identifyGo_tag_mem linkPatternTable url.toList with h | h
  · rw [identifyLinkType, h]; decide
  · exact (by decide : ∀ s ∈ List.map Prod.fst linkPatternTable, s ∈ priorityOrder) _ h

/-- A nonempty classified-link list always yields a primary link: the
priority scan either finds one or the final fallback returns the list
head. -/
theorem selectPrimaryLink_isSome (links : List ClassifiedLink) (h : links ≠ []) :
    ∃ p, selectPrimaryLink links = some p := by
  unfold selectPrimaryLink
  rw [if_neg (by simpa using h)]
  cases hf : firstByPriority priorityOrder links with
  | some l => exact ⟨l, rfl⟩
  | none => exact ⟨links.head h, List.head?_eq_head h⟩

/-- The priority scan ignores tags that no link carries and, at the
first carried tag, returns the first link carrying it. -/
theorem firstByPriority_append (pre : List String) (t : String) (post : List String)
    (links : List ClassifiedLink)
    (hpre : ∀ t' ∈ pre, ∀ l ∈ links, l.type ≠ t')
    (hex : ∃ l ∈ links, l.type = t) :
    firstByPriority (pre ++ t :: post) links = links.find? (fun l => l.type == t) := by
  induction pre with
  | nil =>
      obtain ⟨l, hl, ht⟩ := hex
      simp only [List.nil_append, firstByPriority]
      cases hf : links.find? (fun l => l.type == t) with
      | some x => rfl
      | none =>
          exact absurd (List.find?_eq_none.mp hf l hl) (by simp [ht])
  | cons t' pre' ih =>
      simp only [List.cons_append, firstByPriority]
      have hnone : links.find? (fun l => l.type == t') = none :=
        List.find?_eq_none.mpr (fun l hl => by
          simpa using hpre t' (List.mem_cons_self t' pre') l hl)
      rw [hnone]
      exact ih (fun s hs l hl => hpre s (List.mem_cons_of_mem t' hs) l hl)

/-! ## Claims about the link classifier -/

/-- C9: an input text with zero URL-shaped substrings classifies to the
soft-failure dict: `success=false`, the no-link error message, an empty
`links` list and `primary_link=None`.  No exception is raised — the
embedding is a total function returning this value. -/
theorem classify_no_links_soft_failure (input : String)
    (h : extractLinks input = []) :
    classifyLink input =
      { success := false, error := some "未找到任何链接", links := [],
        primary_link := none, total_links := none } := by
  unfold classifyLink
  rw [h]
  rfl

/-- C9 witness: a concrete input without URLs. -/
theorem classify_no_links_soft_failure_witness :
    extractLinks "hello world" = [] ∧
    classifyLink "hello world" =
      { success := false, error := some "未找到任何链接", links := [],
        primary_link := none, total_links := none } :=
  ⟨by decide, classify_no_links_soft_failure "hello world" (by decide)⟩

/-- C10: whenever at least one URL-shaped substring is extracted,
`classify_link` returns `success=true` with a primary link present;
moreover every URL receives one of the eight tags of the priority
order, so the selection fallback can never be reached with an unknown
tag and the primary of a nonempty list is never `None`. -/
theorem classify_nonempty_success (input : String)
    (h : extractLinks input ≠ []) :
    (classifyLink input).success = true ∧
    (∃ p, (classifyLink input).primary_link = some p) ∧
    (∀ url : String, (identifyLinkType url).1 ∈ priorityOrder) := by
  refine ⟨?_, ?_, fun url => identifyLinkType_tag_mem url⟩
  · unfold classifyLink
    rw [if_neg (by simpa using h)]
  · unfold classifyLink
    rw [if_neg (by simpa using h)]
    exact selectPrimaryLink_isSome _ (by simpa using h)

/-- C10 witness: a concrete input with one direct-video URL. -/
theorem classify_nonempty_success_witness :
    extractLinks "see https://example.com/v.mp4 ok" ≠ [] ∧
    (classifyLink "see https://example.com/v.mp4 ok").success = true ∧
    (∃ p, (classifyLink "see https://example.com/v.mp4 ok").primary_link = some p) :=
  ⟨by decide,
   (classify_nonempty_success "see https://example.com/v.mp4 ok" (by decide)).1,
   (classify_nonempty_success "see https://example.com/v.mp4 ok" (by decide)).2.1⟩

/-- C3: primary-link selection follows the fixed priority order
`direct_video > direct_audio > bilibili > youtube > vimeo > douyin >
kuaishou > unknown`.  First conjunct: any classified list containing
both a `direct_video` and a `bilibili` link (in either order) selects a
`direct_video` link as primary.  Second conjunct, the general law: if
`t` splits the priority order as `pre ++ t :: post` and no link carries
a tag of `pre`, while some link carries `t`, the primary is the first
link (in list order) carrying `t`. -/
theorem select_primary_priority :
    (∀ links : List ClassifiedLink,
      (∃ l ∈ links, l.type = "direct_video") →
      (∃ b ∈ links, b.type = "bilibili") →
      ∃ p, selectPrimaryLink links = some p ∧ p.type = "direct_video") ∧
    (∀ (links : List ClassifiedLink) (pre post : List String) (t : String),
      priorityOrder = pre ++ t :: post →
      (∀ t' ∈ pre, ∀ l ∈ links, l.type ≠ t') →
      (∃ l ∈ links, l.type = t) →
      selectPrimaryLink links = links.find? (fun l => l.type == t)) := by
  have general : ∀ (links : List ClassifiedLink) (pre post : List String) (t : String),
      priorityOrder = pre ++ t :: post →
      (∀ t' ∈ pre, ∀ l ∈ links, l.type ≠ t') →
      (∃ l ∈ links, l.type = t) →
      selectPrimaryLink links = links.find? (fun l => l.type == t) := by
    intro links pre post t horder hpre hex
    obtain ⟨l, hl, ht⟩ := hex
    unfold selectPrimaryLink
    rw [if_neg (by simp [List.isEmpty_iff]; rintro rfl; simp at hl)]
    rw [horder, firstByPriority_append pre t post links hpre ⟨l, hl, ht⟩]
    cases hf : links.find? (fun l => l.type == t) with
    | some x => rfl
    | none => exact absurd (List.find?_eq_none.mp hf l hl) (by simp [ht])
  refine ⟨?_, general⟩
  intro links hdv _
  obtain ⟨l, hl, ht⟩ := hdv
  have h := general links [] ["direct_audio", "bilibili", "youtube", "vimeo",
    "douyin", "kuaishou", "unknown"] "direct_video" rfl (by simp) ⟨l, hl, ht⟩
  rw [h]
  cases hf : links.find? (fun l => l.type == "direct_video") with
  | some x =>
      exact ⟨x, rfl, by simpa using List.find?_some hf⟩
  | none => exact absurd (List.find?_eq_none.mp hf l hl) (by simp [ht])

/-- C3 witness: a bilibili link followed by a direct link; the direct
link is selected although it appears second. -/
theorem select_primary_priority_witness :
    ∃ p, selectPrimaryLink
        [{ url := "https://www.bilibili.com/video/BV1", type := "bilibili",
           platform_id := some "BV1", parser := "bilibili_parser" },
         { url := "https://x.com/v.mp4", type := "direct_video",
           platform_id := some "mp4", parser := "direct_downloader" }] = some p ∧
      p.type = "direct_video" :=
  select_primary_priority.1 _
    ⟨{ url := "https://x.com/v.mp4", type := "direct_video",
       platform_id := some "mp4", parser := "direct_downloader" }, by simp, rfl⟩
    ⟨{ url := "https://www.bilibili.com/video/BV1", type := "bilibili",
       platform_id := some "BV1", parser := "bilibili_parser" }, by simp, rfl⟩

/-! ## Claims about the candidate selector -/

/-- Folding the max over a cons. -/
theorem maxScoreOf_cons (c : DLCandidate) (cs : List DLCandidate) :
    maxScoreOf (c :: cs) = max (scoreCandidate c) (maxScoreOf cs) := rfl

/-- A positive maximal score is attained by some candidate. -/
theorem maxScoreOf_attained (cs : List DLCandidate) :
    maxScoreOf cs = 0 ∨ ∃ c ∈ cs, scoreCandidate c = maxScoreOf cs := by
  induction cs with
  | nil => left; rfl
  | cons c cs ih =>
      rw [maxScoreOf_cons]
      rcases Nat.le_total (maxScoreOf cs) (scoreCandidate c) with hle | hle
      · right
        exact ⟨c, List.mem_cons_self c cs, (Nat.max_eq_left hle).symm⟩
      · rw [Nat.max_eq_right hle]
        rcases ih with h0 | ⟨d, hd, hds⟩
        · left; exact h0
        · right; exact ⟨d, List.mem_cons_of_mem c hd, hds⟩

/-- Characterization of the selection loop: starting from a running
best score `bs`, the loop keeps `bu` unless some candidate beats `bs`,
in which case it returns the first candidate attaining the maximal
score. -/
theorem selectLoop_char (cs : List DLCandidate) : ∀ (bu : String) (bs : Nat),
    selectLoop cs bu bs =
      if maxScoreOf cs ≤ bs then bu
      else
        match cs.find? (fun c => decide (maxScoreOf cs ≤ scoreCandidate c)) with
        | some c => c.url
        | none => bu := by
  induction cs with
  | nil => intro bu bs; simp [selectLoop, maxScoreOf]
  | cons c cs ih =>
      intro bu bs
      rw [selectLoop, maxScoreOf_cons]
      by_cases hbeat : bs < scoreCandidate c
      · rw [if_pos hbeat, ih]
        rcases Nat.le_total (maxScoreOf cs) (scoreCandidate c) with hle | hle
        · -- the head attains the max
          rw [if_pos hle, Nat.max_eq_left hle,
            if_neg (by omega),
            List.find?_cons_of_pos _ (by simp)]
        · -- the max lives in the tail
          rw [Nat.max_eq_right hle]
          by_cases heq : maxScoreOf cs ≤ scoreCandidate c
          · -- equal: head still attains the (tail) max
            rw [if_pos heq, if_neg (show ¬maxScoreOf cs ≤ bs by omega),
              List.find?_cons_of_pos _ (by simp [heq])]
          · rw [if_neg heq, if_neg (show ¬maxScoreOf cs ≤ bs by omega),
              List.find?_cons_of_neg _ (by simpa using heq)]
            rcases maxScoreOf_attained cs with h0 | ⟨d, hd, hds⟩
            · exact (heq (by omega)).elim
            · cases hf : cs.find? (fun x => decide (maxScoreOf cs ≤ scoreCandidate x)) with
              | some x => rfl
              | none =>
                  exact absurd (List.find?_eq_none.mp hf d hd) (by simp [hds])
      · rw [if_neg hbeat, ih]
        have hcb : scoreCandidate c ≤ bs := by omega
        by_cases htail : maxScoreOf cs ≤ bs
        · rw [if_pos htail, if_pos (by omega)]
        · have hcm : scoreCandidate c ≤ maxScoreOf cs := by omega
          rw [if_neg htail, if_neg (by omega), Nat.max_eq_right hcm,
            List.find?_cons_of_neg _ (by simp; omega)]

/-- C4: the Candidate Selector scores candidates additively and returns
the URL of the highest-scoring candidate, the first candidate winning
ties (`specSelectBest`, phrased from the spec, returns the URL of the
first candidate attaining the maximal score).  Second conjunct: the
spec's two-candidate example — the `720p`/`mp4`/50 MB candidate scores
2+2+2=6, the `1080p`/`flv`/600 MB candidate scores 3+0+0=3, and the
selector picks the first. -/
theorem select_best_scoring :
    (∀ l : List DLCandidate, selectBestDownloadUrl l = specSelectBest l) ∧
    (scoreCandidate ⟨"u1", some "720p", some "mp4", some (50 * 1024 * 1024)⟩ = 6 ∧
     scoreCandidate ⟨"u2", some "1080p", some "flv", some (600 * 1024 * 1024)⟩ = 3 ∧
     selectBestDownloadUrl
       [⟨"u1", some "720p", some "mp4", some (50 * 1024 * 1024)⟩,
        ⟨"u2", some "1080p", some "flv", some (600 * 1024 * 1024)⟩] = "u1") := by
  constructor
  · intro l
    cases l with
    | nil => rfl
    | cons c0 cs =>
        rw [selectBestDownloadUrl, specSelectBest, selectLoop_char]
        by_cases hmax : maxScoreOf (c0 :: cs) ≤ 0
        · rw [if_pos hmax, List.find?_cons_of_pos _ (by simp; omega)]
        · rw [if_neg hmax]
  · refine ⟨by decide, by decide, by decide⟩

/-! ## Claims about the direct downloader -/

/-- A freshly written file is found with its written size. -/
theorem FS.lookup_write (fs : FS) (p : String) (n : Nat) :
    FS.lookup (FS.write fs p n) p = some n := by
  simp [FS.lookup, FS.write, List.find?]

/-- A removed file is no longer found. -/
theorem FS.lookup_erase (fs : FS) (p : String) :
    FS.lookup (FS.erase fs p) p = none := by
  induction fs with
  | nil => rfl
  | cons e fs ih =>
      by_cases he : e.1 == p
      · simp only [FS.erase, List.filter, he] at ih ⊢
        exact ih
      · simp only [FS.erase, FS.lookup, List.filter, he, Bool.not_false,
          cond_true, List.find?] at ih ⊢
        exact ih

/-- C6: a response whose declared content-length exceeds the configured
maximum is rejected before the destination file is opened: the failure
dict is returned at once and the filesystem is completely unchanged —
in particular no file is created at the destination path. -/
theorem download_oversize_rejected (cfg : DLConfig) (net : Nat → AttemptBehavior)
    (url filename : String) (fs : FS) (r : OkResponse) (n : Nat)
    (hfs : FS.lookup fs (filePathOf cfg filename) = none)
    (hnet : net 0 = .ok r) (hcl : r.contentLength = some n)
    (hover : cfg.maxFileSize < n) :
    downloadFile cfg net url filename fs =
      ({ success := false, error := some "文件大小超过限制", url := some url },
       fs, []) := by
  show downloadGo cfg net url filename fs 0 (2 + 1) = _
  simp [downloadGo, hfs, hnet, hcl, hover]

/-- C6 witness: a 2000 MB declared length against the default 1000 MB
limit. -/
theorem download_oversize_rejected_witness :
    downloadFile {} (fun _ => .ok { contentLength := some (2000 * 1024 * 1024) })
        "u" "a.mp4" [] =
      ({ success := false, error := some "文件大小超过限制", url := some "u" },
       [], []) :=
  download_oversize_rejected {} _ "u" "a.mp4" [] _ (2000 * 1024 * 1024)
    rfl rfl rfl (by decide)

/-- C2 amended: on a retried 429 (attempt below the maximum), the
sleep inserted before the next attempt is the flat
`retry_delay * 2 = 4` seconds, for every attempt index alike — the
direct downloader's rate-limited delay does not grow with the attempt
number. -/
theorem download_429_flat_delay (cfg : DLConfig) (net : Nat → AttemptBehavior)
    (url filename : String) (fs : FS) (attempt fuel : Nat)
    (hfs : FS.lookup fs (filePathOf cfg filename) = none)
    (hnet : net attempt = .httpStatus 429) :
    (downloadGo cfg net url filename fs attempt (fuel + 2)).2.2 =
      downloaderRetryDelay * 2 ::
        (downloadGo cfg net url filename fs (attempt + 1) (fuel + 1)).2.2 := by
  show (downloadGo cfg net url filename fs attempt ((fuel + 1) + 1)).2.2 = _
  simp [downloadGo, hfs, hnet]

/-- C2 counterexample: one 429 on the first attempt, then success.  The
only sleep performed is 4 seconds, but the claim's formula
`base_delay * 2^(attempt-1)` predicts `2 * 2^0 = 2` seconds for attempt
number 1: the code's delay is not the claimed exponential. -/
theorem download_429_delay_cex :
    ((downloadFile {} (fun i => if i == 0 then .httpStatus 429
          else .ok { chunks := [10] }) "u" "a.mp4" []).2.2 =
      [downloaderRetryDelay * 2]) ∧
    downloaderRetryDelay * 2 ≠ downloaderRetryDelay * 2 ^ (1 - 1) := by
  constructor
  · decide
  · decide

/-- C2 amended witness: instantiating the flat-delay law at attempt 0
of a concrete run. -/
theorem download_429_flat_delay_witness :
    (downloadGo {} (fun i => if i == 0 then .httpStatus 429
        else .ok { chunks := [10] }) "u" "a.mp4" [] 0 (1 + 2)).2.2 =
      downloaderRetryDelay * 2 ::
        (downloadGo {} (fun i => if i == 0 then .httpStatus 429
            else .ok { chunks := [10] }) "u" "a.mp4" [] 1 (1 + 1)).2.2 :=
  download_429_flat_delay {} _ "u" "a.mp4" [] 0 1 rfl rfl

/-- C1 amended: the two branches of `download_file` that detect a bad
body — the running-size-limit trip and the zero-byte completed file —
do delete the file before returning their failure dict.  (The
counterexample `download_partial_persists_cex` shows the other failure
paths do not: a timeout after bytes were streamed leaves the partial
file in place.) -/
theorem download_failure_cleanup (cfg : DLConfig) (net : Nat → AttemptBehavior)
    (url filename : String) (fs : FS) (r : OkResponse)
    (hfs : FS.lookup fs (filePathOf cfg filename) = none)
    (hnet : net 0 = .ok r)
    (hcl : ∀ n, r.contentLength = some n → n ≤ cfg.maxFileSize) :
    ((streamChunks cfg.maxFileSize r.chunks 0).2 = true →
      (downloadFile cfg net url filename fs).1.success = false ∧
      FS.lookup (downloadFile cfg net url filename fs).2.1
        (filePathOf cfg filename) = none) ∧
    ((streamChunks cfg.maxFileSize r.chunks 0).2 = false →
      r.thenFail = none →
      (streamChunks cfg.maxFileSize r.chunks 0).1 = 0 →
      (downloadFile cfg net url filename fs).1.success = false ∧
      FS.lookup (downloadFile cfg net url filename fs).2.1
        (filePathOf cfg filename) = none) := by
  have hclb : (r.contentLength.map (fun n => decide (cfg.maxFileSize < n))).getD false
      = false := by
    cases hc : r.contentLength with
    | none => rfl
    | some n => simp [Nat.not_lt.mpr (hcl n hc)]
  constructor
  · intro htrip
    have : downloadFile cfg net url filename fs =
        ({ success := false, error := some "下载大小超过限制", url := some url },
         FS.erase (FS.write fs (filePathOf cfg filename)
           (streamChunks cfg.maxFileSize r.chunks 0).1) (filePathOf cfg filename),
         []) := by
      show downloadGo cfg net url filename fs 0 (2 + 1) = _
      simp [downloadGo, hfs, hnet, hclb, htrip]
    rw [this]
    exact ⟨rfl, FS.lookup_erase _ _⟩
  · intro hok hthen hzero
    have : downloadFile cfg net url filename fs =
        ({ success := false, error := some "下载的文件大小为0，可能下载失败",
           url := some url },
         FS.erase (FS.write fs (filePathOf cfg filename)
           (streamChunks cfg.maxFileSize r.chunks 0).1) (filePathOf cfg filename),
         []) := by
      show downloadGo cfg net url filename fs 0 (2 + 1) = _
      simp [downloadGo, hfs, hnet, hclb, hok, hthen, FS.lookup_write, hzero]
    rw [this]
    exact ⟨rfl, FS.lookup_erase _ _⟩

/-- C1 amended witness: a body that trips the running size limit is
cleaned up. -/
theorem download_failure_cleanup_witness :
    ((streamChunks (10 : Nat) [6, 6] 0).2 = true) ∧
    ((downloadFile { maxFileSize := 10 } (fun _ => .ok { chunks := [6, 6] })
        "u" "a.mp4" []).1.success = false ∧
     FS.lookup (downloadFile { maxFileSize := 10 }
        (fun _ => .ok { chunks := [6, 6] }) "u" "a.mp4" []).2.1
        (filePathOf { maxFileSize := 10 } "a.mp4") = none) :=
  ⟨by decide,
   (download_failure_cleanup { maxFileSize := 10 } _ "u" "a.mp4" [] _
      rfl rfl (by intro n h; cases h)).1 (by decide)⟩

/-- C1 counterexample: two timeouts, then a third attempt that streams
5 bytes to disk and times out mid-stream.  `download_file` returns a
failure dict, yet the 5-byte partial file persists at the destination
path — contradicting the claim that every failed download deletes any
partially written file before returning. -/
theorem download_partial_persists_cex :
    ((downloadFile {} (fun i => if i < 2 then .netFail .timeout
        else .ok { chunks := [5], thenFail := some .timeout })
        "u" "a.mp4" []).1.success = false) ∧
    (FS.lookup (downloadFile {} (fun i => if i < 2 then .netFail .timeout
        else .ok { chunks := [5], thenFail := some .timeout })
        "u" "a.mp4" []).2.1 "./downloads/a.mp4" = some 5) := by
  constructor
  · decide
  · decide

/-- Success-shape helper: by induction over the remaining attempts, any
success dict produced by the download loop names a file path and a size,
the final filesystem holds that file with exactly that size, and a
success of the fresh-download branch (message `下载完成`) has a positive
size. -/
theorem downloadGo_success_spec (cfg : DLConfig) (net : Nat → AttemptBehavior)
    (url filename : String) :
    ∀ (fuel : Nat) (fs : FS) (attempt : Nat) (res : DLResult) (fs2 : FS)
      (ds : List Nat),
      downloadGo cfg net url filename fs attempt fuel = (res, fs2, ds) →
      res.success = true →
      ∃ p sz, res.file_path = some p ∧ res.size = some sz ∧
        FS.lookup fs2 p = some sz ∧
        (res.message = some "下载完成" → 0 < sz) := by
  intro fuel
  induction fuel with
  | zero =>
      intro fs attempt res fs2 ds heq hsucc
      rw [downloadGo] at heq
      cases heq
      cases hsucc
  | succ fuel ih =>
      intro fs attempt res fs2 ds heq hsucc
      rw [downloadGo] at heq
      cases hlk : FS.lookup fs (filePathOf cfg filename) with
      | some sz =>
          simp only [hlk] at heq
          cases heq
          exact ⟨filePathOf cfg filename, sz, rfl, rfl, hlk,
            fun h => by simp at h⟩
      | none =>
          simp only [hlk] at heq
          cases hnet : net attempt with
          | ok r =>
              simp only [hnet] at heq
              cases hover :
                  (r.contentLength.map (fun n => decide (cfg.maxFileSize < n))).getD false with
              | true =>
                  simp only [hover, if_true] at heq
                  cases heq
                  cases hsucc
              | false =>
                  simp only [hover, Bool.false_eq_true, if_false] at heq
                  cases htrip : (streamChunks cfg.maxFileSize r.chunks 0).2 with
                  | true =>
                      simp only [htrip, if_true] at heq
                      cases heq
                      cases hsucc
                  | false =>
                      simp only [htrip, Bool.false_eq_true, if_false] at heq
                      cases hthen : r.thenFail with
                      | some e =>
                          cases e with
                          | timeout =>
                              simp only [hthen] at heq
                              by_cases hfuel : 1 ≤ fuel
                              · rw [if_pos hfuel] at heq
                                cases heq
                                exact ih _ _ _ _ _ rfl hsucc
                              · rw [if_neg hfuel] at heq
                                cases heq
                                cases hsucc
                          | connError =>
                              simp only [hthen] at heq
                              by_cases hfuel : 1 ≤ fuel
                              · rw [if_pos hfuel] at heq
                                cases heq
                                exact ih _ _ _ _ _ rfl hsucc
                              · rw [if_neg hfuel] at heq
                                cases heq
                                cases hsucc
                          | other m =>
                              simp only [hthen] at heq
                              cases heq
                              cases hsucc
                      | none =>
                          simp only [hthen, FS.lookup_write] at heq
                          cases hzero : ((streamChunks cfg.maxFileSize r.chunks 0).1 == 0) with
                          | true =>
                              simp only [hzero, if_true] at heq
                              cases heq
                              cases hsucc
                          | false =>
                              simp only [hzero, Bool.false_eq_true, if_false] at heq
                              cases heq
                              refine ⟨filePathOf cfg filename,
                                (streamChunks cfg.maxFileSize r.chunks 0).1, rfl, rfl,
                                FS.lookup_write _ _ _, fun _ => ?_⟩
                              exact Nat.pos_of_ne_zero (by simpa using hzero)
          | httpStatus code =>
              simp only [hnet] at heq
              cases h403 : (code == 403) with
              | true =>
                  simp only [h403, if_true] at heq
                  by_cases hfuel : 1 ≤ fuel
                  · rw [if_pos hfuel] at heq
                    cases heq
                    exact ih _ _ _ _ _ rfl hsucc
                  · rw [if_neg hfuel] at heq
                    cases heq
                    cases hsucc
              | false =>
                  simp only [h403, Bool.false_eq_true, if_false] at heq
                  cases h404 : (code == 404) with
                  | true =>
                      simp only [h404, if_true] at heq
                      cases heq
                      cases hsucc
                  | false =>
                      simp only [h404, Bool.false_eq_true, if_false] at heq
                      cases h429 : (code == 429) with
                      | true =>
                          simp only [h429, if_true] at heq
                          by_cases hfuel : 1 ≤ fuel
                          · rw [if_pos hfuel] at heq
                            cases heq
                            exact ih _ _ _ _ _ rfl hsucc
                          · rw [if_neg hfuel] at heq
                            cases heq
                            cases hsucc
                      | false =>
                          simp only [h429, Bool.false_eq_true, if_false] at heq
                          cases heq
                          cases hsucc
          | netFail e =>
              cases e with
              | timeout =>
                  simp only [hnet] at heq
                  by_cases hfuel : 1 ≤ fuel
                  · rw [if_pos hfuel] at heq
                    cases heq
                    exact ih _ _ _ _ _ rfl hsucc
                  · rw [if_neg hfuel] at heq
                    cases heq
                    cases hsucc
              | connError =>
                  simp only [hnet] at heq
                  by_cases hfuel : 1 ≤ fuel
                  · rw [if_pos hfuel] at heq
                    cases heq
                    exact ih _ _ _ _ _ rfl hsucc
                  · rw [if_neg hfuel] at heq
                    cases heq
                    cases hsucc
              | other m =>
                  simp only [hnet] at heq
                  cases heq
                  cases hsucc

/-- C7 amended: every `success=true` outcome of `download_file` names a
`file_path` that exists in the final filesystem with exactly
`size_bytes` bytes; outcomes of the fresh-download branch (message
`下载完成`) additionally have `size_bytes > 0`.  (The short-circuit
branch reports the pre-existing file's size, which the counterexample
shows can be 0.) -/
theorem download_success_invariant (cfg : DLConfig) (net : Nat → AttemptBehavior)
    (url filename : String) (fs : FS)
    (hsucc : (downloadFile cfg net url filename fs).1.success = true) :
    ∃ p sz, (downloadFile cfg net url filename fs).1.file_path = some p ∧
      (downloadFile cfg net url filename fs).1.size = some sz ∧
      FS.lookup (downloadFile cfg net url filename fs).2.1 p = some sz ∧
      ((downloadFile cfg net url filename fs).1.message = some "下载完成" →
        0 < sz) :=
  downloadGo_success_spec cfg net url filename downloaderMaxRetries fs 0
    (downloadFile cfg net url filename fs).1
    (downloadFile cfg net url filename fs).2.1
    (downloadFile cfg net url filename fs).2.2 rfl hsucc

/-- C7 amended witness: a clean one-attempt download of 10 bytes. -/
theorem download_success_invariant_witness :
    ((downloadFile {} (fun _ => .ok { chunks := [10] }) "u" "a.mp4" []).1.success
        = true) ∧
    ∃ p sz,
      (downloadFile {} (fun _ => .ok { chunks := [10] }) "u" "a.mp4" []).1.file_path
        = some p ∧
      (downloadFile {} (fun _ => .ok { chunks := [10] }) "u" "a.mp4" []).1.size
        = some sz ∧
      FS.lookup (downloadFile {} (fun _ => .ok { chunks := [10] })
        "u" "a.mp4" []).2.1 p = some sz ∧
      ((downloadFile {} (fun _ => .ok { chunks := [10] })
          "u" "a.mp4" []).1.message = some "下载完成" → 0 < sz) :=
  ⟨by decide,
   download_success_invariant {} (fun _ => .ok { chunks := [10] }) "u" "a.mp4" []
     (by decide)⟩

/-- C7 counterexample: with a zero-byte file already present at the
destination, `download_file` reports `success=true` with
`size_bytes = 0` — refuting the claim that every success has
`size_bytes > 0`. -/
theorem download_success_zero_cex :
    ((downloadFile {} (fun _ => .netFail .timeout) "u" "a.mp4"
        [("./downloads/a.mp4", 0)]).1.success = true) ∧
    ((downloadFile {} (fun _ => .netFail .timeout) "u" "a.mp4"
        [("./downloads/a.mp4", 0)]).1.size = some 0) := by
  constructor
  · decide
  · decide

/-! ## Claims about the bilibili resolver -/

/-- All-failing-payload runs of the API loop: by induction over the
remaining attempts, if every attempt in range answers with a 200
carrying a non-success payload, the loop performs exactly the remaining
number of attempts and returns the failure dict carrying the last
payload's remote message. -/
theorem biliGo_all_fail (maxRetries : Nat) (net : Nat → ApiAttempt) (url : String) :
    ∀ (fuel : Nat), 1 ≤ fuel → ∀ (attempt : Nat),
      (∀ i, attempt ≤ i → i < attempt + fuel → ∃ p, net i = .payload p ∧ p.code ≠ 1) →
      ∃ p, net (attempt + fuel - 1) = .payload p ∧
        biliGo maxRetries net url attempt fuel =
          ({ success := false,
             error := some ("B站API错误: " ++ p.msg.getD "未知错误"),
             url := some url }, fuel) := by
  intro fuel
  induction fuel with
  | zero => intro h; cases h
  | succ fuel ih =>
      intro _ attempt hall
      obtain ⟨p, hp, hcode⟩ := hall attempt (Nat.le_refl _) (by omega)
      cases fuel with
      | zero =>
          refine ⟨p, by simpa using hp, ?_⟩
          rw [biliGo, hp]
          simp [hcode]
      | succ fuel =>
          obtain ⟨q, hq, hrest⟩ := ih (by omega) (attempt + 1)
            (fun i h1 h2 => hall i (by omega) (by omega))
          refine ⟨q, by rw [show attempt + (fuel + 1 + 1) - 1 = attempt + 1 + (fuel + 1) - 1 by omega]; exact hq, ?_⟩
          rw [biliGo, hp]
          simp only [hrest]
          simp [hcode]

/-- C5: when the remote API returns a transport-level 200 with a
failure payload (payload `code ≠ 1`) on every attempt, the resolver
performs exactly `max_attempts` attempts and returns a failure whose
error string carries the remote-supplied message of the final
payload. -/
theorem bilibili_failure_payload_exhausts (maxRetries : Nat)
    (net : Nat → ApiAttempt) (url : String)
    (hmax : 1 ≤ maxRetries)
    (hall : ∀ i, i < maxRetries → ∃ p, net i = .payload p ∧ p.code ≠ 1) :
    (callBilibiliApi maxRetries net url).2 = maxRetries ∧
    ∃ p, net (maxRetries - 1) = .payload p ∧
      (callBilibiliApi maxRetries net url).1 =
        { success := false,
          error := some ("B站API错误: " ++ p.msg.getD "未知错误"),
          url := some url } := by
  obtain ⟨p, hp, hrun⟩ := biliGo_all_fail maxRetries net url maxRetries hmax 0
    (fun i h1 h2 => hall i (by omega))
  rw [callBilibiliApi]
  rw [hrun]
  exact ⟨rfl, p, by simpa using hp, rfl⟩

/-- C5 witness: three attempts, each answering payload code 0 with
message `请求失败`. -/
theorem bilibili_failure_payload_exhausts_witness :
    (callBilibiliApi 3 (fun _ => .payload { code := 0, msg := some "请求失败" }) "u").2 = 3 ∧
    ∃ p, (fun (_ : Nat) => ApiAttempt.payload { code := 0, msg := some "请求失败" }) (3 - 1)
        = .payload p ∧
      (callBilibiliApi 3 (fun _ => .payload { code := 0, msg := some "请求失败" }) "u").1 =
        { success := false, error := some ("B站API错误: " ++ p.msg.getD "未知错误"),
          url := some "u" } :=
  bilibili_failure_payload_exhausts 3 _ "u" (by decide)
    (fun i _ => ⟨{ code := 0, msg := some "请求失败" }, rfl, by decide⟩)

/-! ## Claims about the workflow orchestrator -/

/-- C8: the orchestrator's stage policy.  Failure of classification,
download, audio extraction or transcription returns that stage's own
failure dict as the final output, and since the equations hold for
every choice of the later collaborators, no later stage can influence
(or be required by) the result.  Failure of the text-processing stage
does not abort: the run still completes with `success=true`, the raw
transcript substituted as the formatted output, and persistence
performed on the assembled record. -/
theorem workflow_stage_policy (co : Collaborators) (input : String) :
    ((classifyLink input).success = false →
      processVideoLink co input = .classificationFailure (classifyLink input)) ∧
    (∀ pl, (classifyLink input).success = true →
      (classifyLink input).primary_link = some pl →
      (((co.download pl.url pl.type).success = false →
        processVideoLink co input = .downloadFailure (co.download pl.url pl.type)) ∧
       ((co.download pl.url pl.type).success = true →
        (((co.extractAudio (co.download pl.url pl.type).file_path).success = false →
          processVideoLink co input =
            .audioFailure (co.extractAudio (co.download pl.url pl.type).file_path)) ∧
         ((co.extractAudio (co.download pl.url pl.type).file_path).success = true →
          (((co.transcribe (co.extractAudio
                (co.download pl.url pl.type).file_path).audio_path).success = false →
            processVideoLink co input =
              .transcriptionFailure (co.transcribe (co.extractAudio
                (co.download pl.url pl.type).file_path).audio_path)) ∧
           ((co.transcribe (co.extractAudio
                (co.download pl.url pl.type).file_path).audio_path).success = true →
            (co.processText (co.transcribe (co.extractAudio
                (co.download pl.url pl.type).file_path).audio_path).transcript
                "format").success = false →
            ∃ rec : WFRecord,
              processVideoLink co input =
                .completed { rec with saved_files := co.persist rec } ∧
              rec.success = true ∧
              rec.formatted_text = (co.transcribe (co.extractAudio
                (co.download pl.url pl.type).file_path).audio_path).transcript))))))) := by
  constructor
  · intro hc
    rw [processVideoLink, if_pos hc]
  · intro pl hc hpl
    constructor
    · intro hd
      rw [processVideoLink, if_neg (by simp [hc]), hpl]
      simp [hd]
    · intro hd
      constructor
      · intro ha
        rw [processVideoLink, if_neg (by simp [hc]), hpl]
        simp [hd, ha]
      · intro ha
        constructor
        · intro ht
          rw [processVideoLink, if_neg (by simp [hc]), hpl]
          simp [hd, ha, ht]
        · intro ht htx
          refine ⟨assembleRecord input pl (co.download pl.url pl.type)
            (co.extractAudio (co.download pl.url pl.type).file_path)
            (co.transcribe (co.extractAudio
              (co.download pl.url pl.type).file_path).audio_path)
            (co.processText (co.transcribe (co.extractAudio
              (co.download pl.url pl.type).file_path).audio_path).transcript
              "format"), ?_, rfl, ?_⟩
          · rw [processVideoLink, if_neg (by simp [hc]), hpl]
            simp [hd, ha, ht]
          · simp [assembleRecord, htx]

/-- C8 witness: a concrete run in which all media stages succeed and
text processing fails; the orchestrator still completes with
`success=true` and the raw transcript as formatted output. -/
theorem workflow_stage_policy_witness :
    ∃ rec : WFRecord,
      processVideoLink wfDemoCollab wfDemoInput =
        .completed { rec with saved_files := wfDemoCollab.persist rec } ∧
      rec.success = true ∧
      rec.formatted_text = (wfDemoCollab.transcribe (wfDemoCollab.extractAudio
        (wfDemoCollab.download wfDemoPrimary.url
          wfDemoPrimary.type).file_path).audio_path).transcript :=
  ((((workflow_stage_policy wfDemoCollab wfDemoInput).2 wfDemoPrimary
      (by decide) (by decide)).2 (by decide)).2 (by decide)).2
    (by decide) (by decide)

end MP4MD